import Mathlib

/-!
Shallow embedding of `src/js/quiz-at-time.js` (Wonderland Engine component
`QuizAtTime`): a quiz gated behind a moment of a video's timeline.

Modelling conventions:
* Bindings fixed at `start` (editor properties and components resolved there)
  live in `Config`: the trigger time `quizTime`, the `correctAnswer` string,
  whether each of the three buttons is assigned, whether a feedback object is
  assigned and whether it carries a text component.
* Per-instance mutable fields live in `State`: `quizShown`, `quizCompleted`,
  the fallback timer `elapsed`, the `active` flag of each button object, the
  feedback object's `active` flag and its text.  `hasAudioSource` mirrors the
  `this.audioSource` field, which no code path ever assigns.
* `videoComponent && videoComponent.video` can change between calls (the video
  element attaches asynchronously), so each `update` takes `ext : Option ℚ`:
  `some t` means the underlying HTML video is present with `currentTime = t`,
  `none` means it is absent.  Each `_onAnswer` call likewise takes
  `vid : Bool` for the presence of the video at that call.
* Calls on external actuators (`video.pause()`, `video.play()`,
  `audioSource.play()`) are emitted as a list of `Cmd`; scene-graph mutations
  (`object.active`, `text.text`) are tracked inside `State`.
* JS numbers are embedded as rationals.
-/

namespace QuizAtTime

/-- Outward commands issued to external actuators. -/
inductive Cmd where
  | mediaPause
  | mediaPlay
  | audioPlay
deriving DecidableEq, Repr

/-- Configuration resolved at `start` from the editor properties:
`quizTime` (property default 3.0), `correctAnswer` (property default "A"),
and which collaborators are actually bound. -/
structure Config where
  quizTime : ℚ
  correctAnswer : String
  hasButtonA : Bool
  hasButtonB : Bool
  hasButtonC : Bool
  hasFeedbackObject : Bool
  hasFeedbackText : Bool
deriving DecidableEq, Repr

/-- Mutable per-instance state: the `this.*` fields of the component plus the
observable scene state it mutates (button `active` flags, feedback object
visibility and text). -/
structure State where
  quizShown : Bool
  quizCompleted : Bool
  elapsed : ℚ
  buttonAActive : Bool
  buttonBActive : Bool
  buttonCActive : Bool
  feedbackVisible : Bool
  feedbackText : String
  hasAudioSource : Bool
deriving DecidableEq, Repr

/-- The spec's phase abstraction: `Waiting` before the trigger, `Active`
while the quiz is on screen, `Completed` after a correct answer. -/
inductive Phase where
  | Waiting
  | Active
  | Completed
deriving DecidableEq, Repr

/-- Phase of a state, read off the two flags: `quizCompleted` means
`Completed`, otherwise `quizShown` means `Active`, otherwise `Waiting`. -/
def phase (s : State) : Phase :=
  if s.quizCompleted then Phase.Completed
  else if s.quizShown then Phase.Active
  else Phase.Waiting

/-- `_setButtonsActive(active)`: sets `active` on each button object that is
assigned, leaves unassigned slots alone. -/
def setButtonsActive (cfg : Config) (active : Bool) (s : State) : State :=
  let s1 := if cfg.hasButtonA then { s with buttonAActive := active } else s
  let s2 := if cfg.hasButtonB then { s1 with buttonBActive := active } else s1
  if cfg.hasButtonC then { s2 with buttonCActive := active } else s2

/-- `_showFeedback(text)`: no-op without a feedback object; otherwise makes
the feedback object visible and, when a text component was found at start,
sets its text. -/
def showFeedback (cfg : Config) (text : String) (s : State) : State :=
  if cfg.hasFeedbackObject then
    let s1 := { s with feedbackVisible := true }
    if cfg.hasFeedbackText then { s1 with feedbackText := text } else s1
  else s

/-- The `Reveal` effect of the trigger branch of `update`: show the buttons,
then clear the feedback text while keeping the feedback object visible. -/
def applyReveal (cfg : Config) (s : State) : State :=
  showFeedback cfg "" (setButtonsActive cfg true s)

/-- The `Succeed` effect of a correct answer: show the success text, then
hide the buttons. -/
def applySucceed (cfg : Config) (s : State) : State :=
  setButtonsActive cfg false (showFeedback cfg "CORRECT!!!" s)

/-- The `Retry` effect of a wrong answer: show the retry text. -/
def applyRetry (cfg : Config) (s : State) : State :=
  showFeedback cfg " Wrong answer, try again" s

/-- The clock sample `update` reads on a tick: the video's `currentTime`
when the video is present at that call, otherwise the fallback accumulator
after adding this frame's delta. -/
def sampleOf (s : State) (dt : ℚ) (ext : Option ℚ) : ℚ :=
  match ext with
  | some t => t
  | none => s.elapsed + dt

/-- `start()`: resets `quizShown`, `quizCompleted` and the fallback timer,
hides the feedback object when one is assigned, and hides all assigned
buttons.  `pre` carries whatever values the untouched fields had. -/
def startState (cfg : Config) (pre : State) : State :=
  let s1 := { pre with quizShown := false, quizCompleted := false,
                       elapsed := (0 : ℚ) }
  let s2 := if cfg.hasFeedbackObject then { s1 with feedbackVisible := false }
            else s1
  setButtonsActive cfg false s2

/-- `update(dt)`: returns early unless the quiz is neither completed nor
shown; reads the clock (video time when present, else the fallback
accumulator incremented by `dt`); on reaching `quizTime` marks the quiz
shown, pauses the video when present, shows the buttons and clears the
feedback text. -/
def update (cfg : Config) (s : State) (dt : ℚ) (ext : Option ℚ) :
    State × List Cmd :=
  if s.quizCompleted || s.quizShown then (s, [])
  else
    let s1 := match ext with
      | some _ => s
      | none => { s with elapsed := s.elapsed + dt }
    let currentTime := sampleOf s dt ext
    if cfg.quizTime ≤ currentTime then
      let cmds := if ext.isSome then [Cmd.mediaPause] else []
      (applyReveal cfg { s1 with quizShown := true }, cmds)
    else (s1, [])

/-- `_onAnswer(answer)`: ignores clicks unless the quiz is shown and not
completed; on the correct answer shows the success text, plays the video
when present, would play `audioSource` were it ever set, hides the buttons
and marks the quiz completed; otherwise shows the retry text. -/
def onAnswer (cfg : Config) (s : State) (ans : String) (vid : Bool) :
    State × List Cmd :=
  if !s.quizShown || s.quizCompleted then (s, [])
  else if ans = cfg.correctAnswer then
    let cmds := (if vid then [Cmd.mediaPlay] else []) ++
                (if s.hasAudioSource then [Cmd.audioPlay] else [])
    let s1 := applySucceed cfg s
    ({ s1 with quizShown := false, quizCompleted := true }, cmds)
  else
    (applyRetry cfg s, [])

/-- States reachable from the end of `start` by any interleaving of frame
ticks and answer clicks.  A fresh component has no `audioSource` field
(it is not among the editor properties and `start` never assigns it), hence
the side condition on the pre-state. -/
inductive Reachable (cfg : Config) : State → Prop where
  | start (pre : State) (hpre : pre.hasAudioSource = false) :
      Reachable cfg (startState cfg pre)
  | tick (s : State) (dt : ℚ) (ext : Option ℚ) (h : Reachable cfg s) :
      Reachable cfg (update cfg s dt ext).1
  | click (s : State) (ans : String) (vid : Bool) (h : Reachable cfg s) :
      Reachable cfg (onAnswer cfg s ans vid).1

/-- Post-states of a sequence of ticks, each given by `(dt, ext)`. -/
def ticksStates (cfg : Config) (s : State) :
    List (ℚ × Option ℚ) → List State
  | [] => []
  | (dt, ext) :: rest =>
    let s1 := (update cfg s dt ext).1
    s1 :: ticksStates cfg s1 rest

/-- Number of Waiting→Active transitions along a sequence of ticks. -/
def activations (cfg : Config) (s : State) : List (ℚ × Option ℚ) → Nat
  | [] => 0
  | (dt, ext) :: rest =>
    let s1 := (update cfg s dt ext).1
    (if phase s = Phase.Waiting ∧ phase s1 = Phase.Active then 1 else 0) +
      activations cfg s1 rest

/-- Clock samples actually read along a sequence of ticks (a tick that
returns early reads no sample). -/
def samplesOf (cfg : Config) (s : State) : List (ℚ × Option ℚ) → List ℚ
  | [] => []
  | (dt, ext) :: rest =>
    let tail := samplesOf cfg (update cfg s dt ext).1 rest
    if phase s = Phase.Waiting then sampleOf s dt ext :: tail else tail

/-- Final state after a sequence of fallback ticks (video absent). -/
def fallbackTicks (cfg : Config) (s : State) : List ℚ → State
  | [] => s
  | dt :: rest => fallbackTicks cfg (update cfg s dt none).1 rest

/-- `(post-state, commands)` of each call in a sequence of answer clicks,
each given by `(label, video-present?)`. -/
def answersTrace (cfg : Config) (s : State) :
    List (String × Bool) → List (State × List Cmd)
  | [] => []
  | (ans, vid) :: rest =>
    let r := onAnswer cfg s ans vid
    r :: answersTrace cfg r.1 rest

/-! ### Basic lemmas about the effect helpers -/

@[simp]
theorem setButtonsActive_quizShown (cfg : Config) (b : Bool) (s : State) :
    (setButtonsActive cfg b s).quizShown = s.quizShown := by
  rcases cfg with ⟨qt, ca, bA, bB, bC, fO, fT⟩
  cases bA <;> cases bB <;> cases bC <;> rfl

@[simp]
theorem setButtonsActive_quizCompleted (cfg : Config) (b : Bool) (s : State) :
    (setButtonsActive cfg b s).quizCompleted = s.quizCompleted := by
  rcases cfg with ⟨qt, ca, bA, bB, bC, fO, fT⟩
  cases bA <;> cases bB <;> cases bC <;> rfl

@[simp]
theorem setButtonsActive_elapsed (cfg : Config) (b : Bool) (s : State) :
    (setButtonsActive cfg b s).elapsed = s.elapsed := by
  rcases cfg with ⟨qt, ca, bA, bB, bC, fO, fT⟩
  cases bA <;> cases bB <;> cases bC <;> rfl

@[simp]
theorem setButtonsActive_feedbackVisible (cfg : Config) (b : Bool) (s : State) :
    (setButtonsActive cfg b s).feedbackVisible = s.feedbackVisible := by
  rcases cfg with ⟨qt, ca, bA, bB, bC, fO, fT⟩
  cases bA <;> cases bB <;> cases bC <;> rfl

@[simp]
theorem setButtonsActive_feedbackText (cfg : Config) (b : Bool) (s : State) :
    (setButtonsActive cfg b s).feedbackText = s.feedbackText := by
  rcases cfg with ⟨qt, ca, bA, bB, bC, fO, fT⟩
  cases bA <;> cases bB <;> cases bC <;> rfl

@[simp]
theorem setButtonsActive_hasAudioSource (cfg : Config) (b : Bool) (s : State) :
    (setButtonsActive cfg b s).hasAudioSource = s.hasAudioSource := by
  rcases cfg with ⟨qt, ca, bA, bB, bC, fO, fT⟩
  cases bA <;> cases bB <;> cases bC <;> rfl

theorem setButtonsActive_buttonA_of_has (cfg : Config) (b : Bool) (s : State)
    (h : cfg.hasButtonA = true) :
    (setButtonsActive cfg b s).buttonAActive = b := by
  rcases cfg with ⟨qt, ca, bA, bB, bC, fO, fT⟩
  cases bA <;> cases bB <;> cases bC <;> simp_all <;> rfl

theorem setButtonsActive_buttonB_of_has (cfg : Config) (b : Bool) (s : State)
    (h : cfg.hasButtonB = true) :
    (setButtonsActive cfg b s).buttonBActive = b := by
  rcases cfg with ⟨qt, ca, bA, bB, bC, fO, fT⟩
  cases bA <;> cases bB <;> cases bC <;> simp_all <;> rfl

theorem setButtonsActive_buttonC_of_has (cfg : Config) (b : Bool) (s : State)
    (h : cfg.hasButtonC = true) :
    (setButtonsActive cfg b s).buttonCActive = b := by
  rcases cfg with ⟨qt, ca, bA, bB, bC, fO, fT⟩
  cases bA <;> cases bB <;> cases bC <;> simp_all <;> rfl

@[simp]
theorem showFeedback_quizShown (cfg : Config) (t : String) (s : State) :
    (showFeedback cfg t s).quizShown = s.quizShown := by
  rcases cfg with ⟨qt, ca, bA, bB, bC, fO, fT⟩
  cases fO <;> cases fT <;> rfl

@[simp]
theorem showFeedback_quizCompleted (cfg : Config) (t : String) (s : State) :
    (showFeedback cfg t s).quizCompleted = s.quizCompleted := by
  rcases cfg with ⟨qt, ca, bA, bB, bC, fO, fT⟩
  cases fO <;> cases fT <;> rfl

@[simp]
theorem showFeedback_elapsed (cfg : Config) (t : String) (s : State) :
    (showFeedback cfg t s).elapsed = s.elapsed := by
  rcases cfg with ⟨qt, ca, bA, bB, bC, fO, fT⟩
  cases fO <;> cases fT <;> rfl

@[simp]
theorem showFeedback_buttonAActive (cfg : Config) (t : String) (s : State) :
    (showFeedback cfg t s).buttonAActive = s.buttonAActive := by
  rcases cfg with ⟨qt, ca, bA, bB, bC, fO, fT⟩
  cases fO <;> cases fT <;> rfl

@[simp]
theorem showFeedback_buttonBActive (cfg : Config) (t : String) (s : State) :
    (showFeedback cfg t s).buttonBActive = s.buttonBActive := by
  rcases cfg with ⟨qt, ca, bA, bB, bC, fO, fT⟩
  cases fO <;> cases fT <;> rfl

@[simp]
theorem showFeedback_buttonCActive (cfg : Config) (t : String) (s : State) :
    (showFeedback cfg t s).buttonCActive = s.buttonCActive := by
  rcases cfg with ⟨qt, ca, bA, bB, bC, fO, fT⟩
  cases fO <;> cases fT <;> rfl

@[simp]
theorem showFeedback_hasAudioSource (cfg : Config) (t : String) (s : State) :
    (showFeedback cfg t s).hasAudioSource = s.hasAudioSource := by
  rcases cfg with ⟨qt, ca, bA, bB, bC, fO, fT⟩
  cases fO <;> cases fT <;> rfl

theorem showFeedback_visible_of_has (cfg : Config) (t : String) (s : State)
    (h : cfg.hasFeedbackObject = true) :
    (showFeedback cfg t s).feedbackVisible = true := by
  rcases cfg with ⟨qt, ca, bA, bB, bC, fO, fT⟩
  cases fO <;> cases fT <;> simp_all <;> rfl

theorem showFeedback_text_of_has (cfg : Config) (t : String) (s : State)
    (hO : cfg.hasFeedbackObject = true) (hT : cfg.hasFeedbackText = true) :
    (showFeedback cfg t s).feedbackText = t := by
  rcases cfg with ⟨qt, ca, bA, bB, bC, fO, fT⟩
  cases fO <;> cases fT <;> simp_all [showFeedback]

theorem showFeedback_of_not (cfg : Config) (t : String) (s : State)
    (h : cfg.hasFeedbackObject = false) :
    showFeedback cfg t s = s := by
  simp [showFeedback, h]

@[simp]
theorem phase_setButtonsActive (cfg : Config) (b : Bool) (s : State) :
    phase (setButtonsActive cfg b s) = phase s := by
  unfold phase; simp

@[simp]
theorem phase_showFeedback (cfg : Config) (t : String) (s : State) :
    phase (showFeedback cfg t s) = phase s := by
  unfold phase; simp

@[simp]
theorem phase_applyReveal (cfg : Config) (s : State) :
    phase (applyReveal cfg s) = phase s := by
  unfold applyReveal; simp

@[simp]
theorem phase_applySucceed (cfg : Config) (s : State) :
    phase (applySucceed cfg s) = phase s := by
  unfold applySucceed; simp

@[simp]
theorem phase_applyRetry (cfg : Config) (s : State) :
    phase (applyRetry cfg s) = phase s := by
  unfold applyRetry; simp

@[simp]
theorem applyReveal_elapsed (cfg : Config) (s : State) :
    (applyReveal cfg s).elapsed = s.elapsed := by
  unfold applyReveal; simp

@[simp]
theorem applyReveal_quizShown (cfg : Config) (s : State) :
    (applyReveal cfg s).quizShown = s.quizShown := by
  unfold applyReveal; simp

@[simp]
theorem applyReveal_quizCompleted (cfg : Config) (s : State) :
    (applyReveal cfg s).quizCompleted = s.quizCompleted := by
  unfold applyReveal; simp

@[simp]
theorem applyReveal_hasAudioSource (cfg : Config) (s : State) :
    (applyReveal cfg s).hasAudioSource = s.hasAudioSource := by
  unfold applyReveal; simp

@[simp]
theorem applySucceed_hasAudioSource (cfg : Config) (s : State) :
    (applySucceed cfg s).hasAudioSource = s.hasAudioSource := by
  unfold applySucceed; simp

@[simp]
theorem applyRetry_hasAudioSource (cfg : Config) (s : State) :
    (applyRetry cfg s).hasAudioSource = s.hasAudioSource := by
  unfold applyRetry; simp

/-! ### Phase characterizations -/

theorem phase_eq_waiting_iff (s : State) :
    phase s = Phase.Waiting ↔
      s.quizCompleted = false ∧ s.quizShown = false := by
  unfold phase
  cases hc : s.quizCompleted <;> cases hs : s.quizShown <;> simp

theorem phase_eq_active_iff (s : State) :
    phase s = Phase.Active ↔
      s.quizCompleted = false ∧ s.quizShown = true := by
  unfold phase
  cases hc : s.quizCompleted <;> cases hs : s.quizShown <;> simp

theorem phase_eq_completed_iff (s : State) :
    phase s = Phase.Completed ↔ s.quizCompleted = true := by
  unfold phase
  cases hc : s.quizCompleted <;> cases hs : s.quizShown <;> simp

/-! ### Case lemmas for `update` and `onAnswer` -/

theorem update_not_waiting (cfg : Config) (s : State) (dt : ℚ) (ext : Option ℚ)
    (h : phase s ≠ Phase.Waiting) :
    update cfg s dt ext = (s, []) := by
  have hg : (s.quizCompleted || s.quizShown) = true := by
    rw [ne_eq, phase_eq_waiting_iff] at h
    cases hc : s.quizCompleted <;> cases hs : s.quizShown <;> simp_all
  simp [update, hg]

theorem update_waiting_none_lt (cfg : Config) (s : State) (dt : ℚ)
    (h : phase s = Phase.Waiting) (hlt : s.elapsed + dt < cfg.quizTime) :
    update cfg s dt none = ({ s with elapsed := s.elapsed + dt }, []) := by
  rw [phase_eq_waiting_iff] at h
  simp [update, sampleOf, h.1, h.2, not_le.mpr hlt]

theorem update_waiting_none_ge (cfg : Config) (s : State) (dt : ℚ)
    (h : phase s = Phase.Waiting) (hge : cfg.quizTime ≤ s.elapsed + dt) :
    update cfg s dt none =
      (applyReveal cfg
        { s with elapsed := s.elapsed + dt, quizShown := true }, []) := by
  rw [phase_eq_waiting_iff] at h
  simp [update, sampleOf, h.1, h.2, hge]

theorem update_waiting_some_lt (cfg : Config) (s : State) (dt t : ℚ)
    (h : phase s = Phase.Waiting) (hlt : t < cfg.quizTime) :
    update cfg s dt (some t) = (s, []) := by
  rw [phase_eq_waiting_iff] at h
  simp [update, sampleOf, h.1, h.2, not_le.mpr hlt]

theorem update_waiting_some_ge (cfg : Config) (s : State) (dt t : ℚ)
    (h : phase s = Phase.Waiting) (hge : cfg.quizTime ≤ t) :
    update cfg s dt (some t) =
      (applyReveal cfg { s with quizShown := true }, [Cmd.mediaPause]) := by
  rw [phase_eq_waiting_iff] at h
  simp [update, sampleOf, h.1, h.2, hge]

theorem onAnswer_not_active (cfg : Config) (s : State) (ans : String)
    (vid : Bool) (h : phase s ≠ Phase.Active) :
    onAnswer cfg s ans vid = (s, []) := by
  have hg : (!s.quizShown || s.quizCompleted) = true := by
    rw [ne_eq, phase_eq_active_iff] at h
    cases hc : s.quizCompleted <;> cases hs : s.quizShown <;> simp_all
  simp [onAnswer, hg]

theorem onAnswer_correct (cfg : Config) (s : State) (ans : String) (vid : Bool)
    (h : phase s = Phase.Active) (hc : ans = cfg.correctAnswer) :
    onAnswer cfg s ans vid =
      ({ applySucceed cfg s with quizShown := false, quizCompleted := true },
       (if vid then [Cmd.mediaPlay] else []) ++
         (if s.hasAudioSource then [Cmd.audioPlay] else [])) := by
  rw [phase_eq_active_iff] at h
  simp [onAnswer, h.1, h.2, hc]

theorem onAnswer_wrong (cfg : Config) (s : State) (ans : String) (vid : Bool)
    (h : phase s = Phase.Active) (hc : ans ≠ cfg.correctAnswer) :
    onAnswer cfg s ans vid = (applyRetry cfg s, []) := by
  rw [phase_eq_active_iff] at h
  simp [onAnswer, h.1, h.2, hc]

@[simp]
theorem phase_with_elapsed (s : State) (x : ℚ) :
    phase { s with elapsed := x } = phase s := rfl

/-- Ticks never produce an activation once the phase has left `Waiting`. -/
theorem activations_of_not_waiting (cfg : Config) (s : State)
    (l : List (ℚ × Option ℚ)) (h : phase s ≠ Phase.Waiting) :
    activations cfg s l = 0 := by
  induction l generalizing s with
  | nil => rfl
  | cons p rest ih =>
    obtain ⟨dt, ext⟩ := p
    simp only [activations]
    rw [update_not_waiting cfg s dt ext h]
    simp [h, ih s h]

theorem activations_le_one (cfg : Config) (s : State)
    (l : List (ℚ × Option ℚ)) :
    activations cfg s l ≤ 1 := by
  induction l generalizing s with
  | nil => simp [activations]
  | cons p rest ih =>
    obtain ⟨dt, ext⟩ := p
    simp only [activations]
    by_cases hcond :
        phase s = Phase.Waiting ∧ phase (update cfg s dt ext).1 = Phase.Active
    · rw [if_pos hcond]
      have h0 : activations cfg (update cfg s dt ext).1 rest = 0 :=
        activations_of_not_waiting cfg _ rest (by rw [hcond.2]; simp)
      omega
    · rw [if_neg hcond]
      simpa using ih (update cfg s dt ext).1

/-- A tick that moves the phase out of `Waiting` read a sample past the
trigger time. -/
theorem update_active_of_waiting (cfg : Config) (s : State) (dt : ℚ)
    (ext : Option ℚ) (hW : phase s = Phase.Waiting)
    (hA : phase (update cfg s dt ext).1 = Phase.Active) :
    cfg.quizTime ≤ sampleOf s dt ext := by
  by_contra hlt
  push_neg at hlt
  cases ext with
  | none =>
    rw [update_waiting_none_lt cfg s dt hW (by simpa [sampleOf] using hlt)]
      at hA
    rw [phase_with_elapsed, hW] at hA
    exact absurd hA (by simp)
  | some t =>
    rw [update_waiting_some_lt cfg s dt t hW (by simpa [sampleOf] using hlt)]
      at hA
    rw [hW] at hA
    exact absurd hA (by simp)

/-! ### Concrete instances used to witness the theorems -/

/-- A fully bound configuration: trigger at 3 seconds, correct answer "A". -/
def cfgEx : Config :=
  ⟨3, "A", true, true, true, true, true⟩

/-- A pre-`start` state of a fresh component. -/
def preEx : State :=
  ⟨false, false, 0, false, false, false, false, "", false⟩

/-- The state right after `start`: `Waiting`, fallback timer at 0. -/
def sWaitEx : State := startState cfgEx preEx

/-- The state after one fallback tick of 3 seconds: the quiz is `Active`. -/
def sActiveEx : State := (update cfgEx sWaitEx 3 none).1

/-- The state after then answering "A" correctly: `Completed`. -/
def sDoneEx : State := (onAnswer cfgEx sActiveEx "A" false).1

theorem sWaitEx_eq :
    sWaitEx = ⟨false, false, 0, false, false, false, false, "", false⟩ := by
  simp [sWaitEx, startState, cfgEx, preEx, setButtonsActive, showFeedback]

theorem sActiveEx_eq :
    sActiveEx = ⟨true, false, 3, true, true, true, true, "", false⟩ := by
  rw [sActiveEx, sWaitEx_eq]
  simp [update, sampleOf, cfgEx, applyReveal, setButtonsActive, showFeedback]

theorem sDoneEx_eq :
    sDoneEx = ⟨false, true, 3, false, false, false, true, "CORRECT!!!", false⟩ := by
  rw [sDoneEx, sActiveEx_eq]
  simp [onAnswer, cfgEx, applySucceed, setButtonsActive, showFeedback]

/-- C1: along any sequence of ticks the phase leaves `Waiting` for `Active`
at most once, such a transition happens only on a tick whose clock sample
reached `quizTime`, and `update` is a no-op (same state, no commands)
whenever the phase is not `Waiting`. -/
theorem monotonic_trigger (cfg : Config) (s : State)
    (l : List (ℚ × Option ℚ)) :
    (∀ (t : State) (dt : ℚ) (ext : Option ℚ), phase t ≠ Phase.Waiting →
        update cfg t dt ext = (t, [])) ∧
    activations cfg s l ≤ 1 ∧
    (∀ (t : State) (dt : ℚ) (ext : Option ℚ), phase t = Phase.Waiting →
        phase (update cfg t dt ext).1 = Phase.Active →
        cfg.quizTime ≤ sampleOf t dt ext) :=
  ⟨fun t dt ext h => update_not_waiting cfg t dt ext h,
   activations_le_one cfg s l,
   fun t dt ext hW hA => update_active_of_waiting cfg t dt ext hW hA⟩

theorem monotonic_trigger_witness :
    update cfgEx sActiveEx 1 none = (sActiveEx, []) ∧
    activations cfgEx sWaitEx [(1, none), (3, none), (1, none)] ≤ 1 ∧
    cfgEx.quizTime ≤ sampleOf sWaitEx 3 none :=
  ⟨(monotonic_trigger cfgEx sActiveEx []).1 sActiveEx 1 none
     (by rw [sActiveEx_eq]; decide),
   (monotonic_trigger cfgEx sWaitEx [(1, none), (3, none), (1, none)]).2.1,
   (monotonic_trigger cfgEx sWaitEx []).2.2 sWaitEx 3 none
     (by rw [sWaitEx_eq]; decide)
     (by rw [show (update cfgEx sWaitEx 3 none).1 = sActiveEx from rfl,
             sActiveEx_eq]; decide)⟩

/-- Once the quiz is completed, every further click is a no-op: each entry of
the answer trace repeats the state and emits no command. -/
theorem answersTrace_completed (cfg : Config) (s : State)
    (l : List (String × Bool)) (h : phase s = Phase.Completed) :
    ∀ p ∈ answersTrace cfg s l, p = (s, []) := by
  induction l generalizing s with
  | nil => simp [answersTrace]
  | cons q rest ih =>
    obtain ⟨ans, vid⟩ := q
    intro p hp
    have hno : onAnswer cfg s ans vid = (s, []) :=
      onAnswer_not_active cfg s ans vid (by rw [h]; simp)
    simp only [answersTrace, hno, List.mem_cons] at hp
    rcases hp with hp | hp
    · exact hp
    · exact ih s h p hp

/-- C2: a correct click while `Active` completes the quiz, and from then on
every further click — correct or not — leaves the state unchanged (still
`Completed`) and emits no command: at most one `Succeed` effect is ever
emitted per instance. -/
theorem at_most_one_success (cfg : Config) (s : State) (ans : String)
    (vid : Bool) (l : List (String × Bool))
    (hA : phase s = Phase.Active) (hc : ans = cfg.correctAnswer) :
    phase (onAnswer cfg s ans vid).1 = Phase.Completed ∧
    ∀ p ∈ answersTrace cfg (onAnswer cfg s ans vid).1 l,
      p = ((onAnswer cfg s ans vid).1, []) := by
  have h1 : phase (onAnswer cfg s ans vid).1 = Phase.Completed := by
    rw [onAnswer_correct cfg s ans vid hA hc, phase_eq_completed_iff]
  exact ⟨h1, answersTrace_completed cfg _ l h1⟩

theorem at_most_one_success_witness :
    phase (onAnswer cfgEx sActiveEx "A" false).1 = Phase.Completed ∧
    onAnswer cfgEx (onAnswer cfgEx sActiveEx "A" false).1 "A" false =
      ((onAnswer cfgEx sActiveEx "A" false).1, []) := by
  have h := at_most_one_success cfgEx sActiveEx "A" false [("A", false)]
    (by rw [sActiveEx_eq]; decide) (by decide)
  exact ⟨h.1,
    h.2 (onAnswer cfgEx (onAnswer cfgEx sActiveEx "A" false).1 "A" false)
      (by simp [answersTrace])⟩

/-- C3: a click delivered while the phase is `Waiting` or `Completed` is
dropped without any side effect: the state (phase, feedback, visibility
flags, timers) is returned unchanged and no command is emitted. -/
theorem answer_gating (cfg : Config) (s : State) (ans : String) (vid : Bool)
    (h : phase s = Phase.Waiting ∨ phase s = Phase.Completed) :
    onAnswer cfg s ans vid = (s, []) := by
  apply onAnswer_not_active
  rcases h with h | h <;> rw [h] <;> simp

theorem answer_gating_witness :
    onAnswer cfgEx sWaitEx "A" true = (sWaitEx, []) :=
  answer_gating cfgEx sWaitEx "A" true
    (Or.inl (by rw [sWaitEx_eq]; decide))

theorem startState_elapsed (cfg : Config) (pre : State) :
    (startState cfg pre).elapsed = 0 := by
  unfold startState
  simp only [setButtonsActive_elapsed]
  split <;> rfl

theorem startState_phase (cfg : Config) (pre : State) :
    phase (startState cfg pre) = Phase.Waiting := by
  unfold startState
  simp only [phase_setButtonsActive]
  split <;> rfl

/-- While every fallback sample stays below the trigger time, the phase
stays `Waiting` and the fallback timer is exactly the accumulated sum. -/
theorem fallbackTicks_waiting (cfg : Config) (dts : List ℚ) (s : State)
    (hW : phase s = Phase.Waiting)
    (hlt : ∀ m, 1 ≤ m → m ≤ dts.length →
      s.elapsed + (dts.take m).sum < cfg.quizTime) :
    phase (fallbackTicks cfg s dts) = Phase.Waiting ∧
    (fallbackTicks cfg s dts).elapsed = s.elapsed + dts.sum := by
  induction dts generalizing s with
  | nil => simpa [fallbackTicks] using hW
  | cons dt rest ih =>
    have h1 : s.elapsed + dt < cfg.quizTime := by
      simpa using hlt 1 le_rfl (by simp)
    rw [fallbackTicks, update_waiting_none_lt cfg s dt hW h1]
    have hW' : phase { s with elapsed := s.elapsed + dt } = Phase.Waiting := by
      simpa using hW
    have hlt' : ∀ m, 1 ≤ m → m ≤ rest.length →
        ({ s with elapsed := s.elapsed + dt } : State).elapsed +
          (rest.take m).sum < cfg.quizTime := by
      intro m h1m hm
      have := hlt (m + 1) (by omega) (by simpa using Nat.succ_le_succ hm)
      simpa [add_assoc] using this
    have := ih _ hW' hlt'
    simpa [add_assoc] using this

/-- The first fallback tick whose running sum reaches the trigger time
activates the quiz, and the fallback timer still equals the sum. -/
theorem fallbackTicks_triggers (cfg : Config) (dts : List ℚ) (s : State)
    (hW : phase s = Phase.Waiting) (hne : dts ≠ [])
    (hlt : ∀ m, 1 ≤ m → m < dts.length →
      s.elapsed + (dts.take m).sum < cfg.quizTime)
    (hge : cfg.quizTime ≤ s.elapsed + dts.sum) :
    phase (fallbackTicks cfg s dts) = Phase.Active ∧
    (fallbackTicks cfg s dts).elapsed = s.elapsed + dts.sum := by
  induction dts generalizing s with
  | nil => exact absurd rfl hne
  | cons dt rest ih =>
    cases rest with
    | nil =>
      have hge1 : cfg.quizTime ≤ s.elapsed + dt := by simpa using hge
      rw [fallbackTicks, update_waiting_none_ge cfg s dt hW hge1,
        fallbackTicks]
      refine ⟨?_, by simp⟩
      rw [phase_applyReveal, phase_eq_active_iff]
      exact ⟨((phase_eq_waiting_iff s).mp hW).1, rfl⟩
    | cons dt2 rest2 =>
      have h1 : s.elapsed + dt < cfg.quizTime := by
        simpa using hlt 1 le_rfl (by simp)
      rw [fallbackTicks, update_waiting_none_lt cfg s dt hW h1]
      have hW' : phase { s with elapsed := s.elapsed + dt } =
          Phase.Waiting := by simpa using hW
      have hlt' : ∀ m, 1 ≤ m → m < (dt2 :: rest2).length →
          ({ s with elapsed := s.elapsed + dt } : State).elapsed +
            ((dt2 :: rest2).take m).sum < cfg.quizTime := by
        intro m h1m hm
        have := hlt (m + 1) (by omega) (by simpa using Nat.succ_lt_succ hm)
        simpa [add_assoc] using this
      have hge' : cfg.quizTime ≤
          ({ s with elapsed := s.elapsed + dt } : State).elapsed +
            ((dt2 :: rest2) : List ℚ).sum := by
        simpa [add_assoc] using hge
      have := ih _ hW' (by simp) hlt' hge'
      simpa [add_assoc] using this

theorem update_elapsed_of_not_waiting (cfg : Config) (s : State) (dt : ℚ)
    (ext : Option ℚ) (h : phase s ≠ Phase.Waiting) :
    ((update cfg s dt ext).1).elapsed = s.elapsed := by
  rw [update_not_waiting cfg s dt ext h]

theorem update_elapsed_mono (cfg : Config) (s : State) (dt : ℚ)
    (ext : Option ℚ) (hdt : 0 ≤ dt) :
    s.elapsed ≤ ((update cfg s dt ext).1).elapsed := by
  by_cases hW : phase s = Phase.Waiting
  · cases ext with
    | none =>
      by_cases hge : cfg.quizTime ≤ s.elapsed + dt
      · rw [update_waiting_none_ge cfg s dt hW hge]
        simpa using hdt
      · push_neg at hge
        rw [update_waiting_none_lt cfg s dt hW hge]
        simpa using hdt
    | some t =>
      by_cases hge : cfg.quizTime ≤ t
      · rw [update_waiting_some_ge cfg s dt t hW hge]
        simp
      · push_neg at hge
        rw [update_waiting_some_lt cfg s dt t hW hge]
  · rw [update_not_waiting cfg s dt ext hW]

/-- C4: with no external clock bound, the fallback timer after a run of
ticks from `start` equals the sum of the deltas as long as the quiz stays
`Waiting`; the quiz becomes `Active` exactly at the first tick whose
running sum reaches `quizTime`; and the fallback timer is mutated only
while `Waiting`, hence non-decreasing for non-negative deltas. -/
theorem fallback_accumulation (cfg : Config) (pre : State) (dts : List ℚ) :
    (∀ n, n ≤ dts.length →
        (∀ m, 1 ≤ m → m ≤ n → (dts.take m).sum < cfg.quizTime) →
        phase (fallbackTicks cfg (startState cfg pre) (dts.take n)) =
          Phase.Waiting ∧
        (fallbackTicks cfg (startState cfg pre) (dts.take n)).elapsed =
          (dts.take n).sum) ∧
    (∀ n, 1 ≤ n → n ≤ dts.length →
        (∀ m, 1 ≤ m → m < n → (dts.take m).sum < cfg.quizTime) →
        cfg.quizTime ≤ (dts.take n).sum →
        phase (fallbackTicks cfg (startState cfg pre) (dts.take n)) =
          Phase.Active ∧
        (fallbackTicks cfg (startState cfg pre) (dts.take n)).elapsed =
          (dts.take n).sum) ∧
    (∀ (s : State) (dt : ℚ) (ext : Option ℚ), phase s ≠ Phase.Waiting →
        ((update cfg s dt ext).1).elapsed = s.elapsed) ∧
    (∀ (s : State) (dt : ℚ) (ext : Option ℚ), 0 ≤ dt →
        s.elapsed ≤ ((update cfg s dt ext).1).elapsed) := by
  refine ⟨?_, ?_, update_elapsed_of_not_waiting cfg, update_elapsed_mono cfg⟩
  · intro n hn hlt
    have := fallbackTicks_waiting cfg (dts.take n) (startState cfg pre)
      (startState_phase cfg pre) ?_
    · simpa [startState_elapsed] using this
    · intro m h1m hm
      rw [List.length_take] at hm
      have hmn : m ≤ n := hm.trans (min_le_left _ _)
      rw [List.take_take, min_eq_left hmn, startState_elapsed, zero_add]
      exact hlt m h1m hmn
  · intro n h1n hn hlt hge
    have hne : dts.take n ≠ [] := by
      intro hcon
      have := congrArg List.length hcon
      rw [List.length_take] at this
      simp only [List.length_nil] at this
      omega
    have := fallbackTicks_triggers cfg (dts.take n) (startState cfg pre)
      (startState_phase cfg pre) hne ?_ ?_
    · simpa [startState_elapsed] using this
    · intro m h1m hm
      rw [List.length_take] at hm
      have hmn : m < n := lt_of_lt_of_le hm (min_le_left _ _)
      rw [List.take_take, min_eq_left hmn.le, startState_elapsed, zero_add]
      exact hlt m h1m hmn
    · rw [startState_elapsed, zero_add]
      exact hge

theorem fallback_accumulation_witness :
    (phase (fallbackTicks cfgEx (startState cfgEx preEx)
        (([0, 3] : List ℚ).take 1)) = Phase.Waiting ∧
     (fallbackTicks cfgEx (startState cfgEx preEx)
        (([0, 3] : List ℚ).take 1)).elapsed =
       (([0, 3] : List ℚ).take 1).sum) ∧
    (phase (fallbackTicks cfgEx (startState cfgEx preEx)
        (([0, 3] : List ℚ).take 2)) = Phase.Active ∧
     (fallbackTicks cfgEx (startState cfgEx preEx)
        (([0, 3] : List ℚ).take 2)).elapsed =
       (([0, 3] : List ℚ).take 2).sum) ∧
    ((update cfgEx sActiveEx 1 none).1).elapsed = sActiveEx.elapsed ∧
    sWaitEx.elapsed ≤ ((update cfgEx sWaitEx 1 none).1).elapsed :=
  ⟨(fallback_accumulation cfgEx preEx [0, 3]).1 1 (by decide)
     (fun m h1 h2 => by
       have hm : m = 1 := le_antisymm h2 h1
       subst hm
       simp [cfgEx]),
   (fallback_accumulation cfgEx preEx [0, 3]).2.1 2 (by decide) (by decide)
     (fun m h1 h2 => by
       have hm : m = 1 := by omega
       subst hm
       simp [cfgEx])
     (by simp [cfgEx]),
   (fallback_accumulation cfgEx preEx [0, 3]).2.2.1 sActiveEx 1 none
     (by rw [sActiveEx_eq]; decide),
   (fallback_accumulation cfgEx preEx [0, 3]).2.2.2 sWaitEx 1 none
     (by decide)⟩

/-- C5: while `Active`, every incorrect click keeps the quiz `Active`,
issues no actuator command, leaves the button visibility untouched, and
applies the `Retry` effect: with a feedback sink bound the sink is visible
and (with a text component) shows the retry message. -/
theorem retry_loop (cfg : Config) (s : State) (labels : List (String × Bool))
    (hA : phase s = Phase.Active)
    (hinc : ∀ p ∈ labels, p.1 ≠ cfg.correctAnswer) :
    ∀ p ∈ answersTrace cfg s labels,
      phase p.1 = Phase.Active ∧
      p.2 = [] ∧
      p.1.buttonAActive = s.buttonAActive ∧
      p.1.buttonBActive = s.buttonBActive ∧
      p.1.buttonCActive = s.buttonCActive ∧
      (cfg.hasFeedbackObject = true → p.1.feedbackVisible = true) ∧
      (cfg.hasFeedbackObject = true → cfg.hasFeedbackText = true →
        p.1.feedbackText = " Wrong answer, try again") := by
  induction labels generalizing s with
  | nil => simp [answersTrace]
  | cons q rest ih =>
    obtain ⟨ans, vid⟩ := q
    have hq : ans ≠ cfg.correctAnswer := hinc (ans, vid) (by simp)
    have hr : onAnswer cfg s ans vid = (applyRetry cfg s, []) :=
      onAnswer_wrong cfg s ans vid hA hq
    intro p hp
    simp only [answersTrace, hr, List.mem_cons] at hp
    rcases hp with rfl | hp
    · refine ⟨by simp [hA], rfl, by simp [applyRetry], by simp [applyRetry],
        by simp [applyRetry], ?_, ?_⟩
      · intro hO
        exact showFeedback_visible_of_has cfg _ s hO
      · intro hO hT
        exact showFeedback_text_of_has cfg _ s hO hT
    · have hA1 : phase (applyRetry cfg s) = Phase.Active := by simp [hA]
      have hinc' : ∀ p ∈ rest, p.1 ≠ cfg.correctAnswer := fun p hp' =>
        hinc p (by simp [hp'])
      have hres := ih (applyRetry cfg s) hA1 hinc' p hp
      refine ⟨hres.1, hres.2.1, ?_, ?_, ?_,
        hres.2.2.2.2.2.1, hres.2.2.2.2.2.2⟩
      · rw [hres.2.2.1]; simp [applyRetry]
      · rw [hres.2.2.2.1]; simp [applyRetry]
      · rw [hres.2.2.2.2.1]; simp [applyRetry]

theorem retry_loop_witness :
    phase (onAnswer cfgEx sActiveEx "B" false).1 = Phase.Active ∧
    (onAnswer cfgEx sActiveEx "B" false).2 = [] ∧
    (onAnswer cfgEx sActiveEx "B" false).1.buttonAActive =
      sActiveEx.buttonAActive ∧
    (onAnswer cfgEx sActiveEx "B" false).1.feedbackVisible = true ∧
    (onAnswer cfgEx sActiveEx "B" false).1.feedbackText =
      " Wrong answer, try again" := by
  have h := retry_loop cfgEx sActiveEx [("B", false)]
    (by rw [sActiveEx_eq]; decide) (by decide)
    (onAnswer cfgEx sActiveEx "B" false) (by simp [answersTrace])
  exact ⟨h.1, h.2.1, h.2.2.1, h.2.2.2.2.2.1 rfl, h.2.2.2.2.2.2 rfl rfl⟩

/-- A configuration with no feedback sink and no text component. -/
def cfgBare : Config :=
  ⟨3, "A", true, true, true, false, false⟩

/-- `Waiting` state of the bare configuration after `start`. -/
def sWaitBare : State := startState cfgBare preEx

/-- `Active` state of the bare configuration after one 3 second tick. -/
def sActiveBare : State := (update cfgBare sWaitBare 3 none).1

theorem sWaitBare_eq :
    sWaitBare = ⟨false, false, 0, false, false, false, false, "", false⟩ := by
  simp [sWaitBare, startState, cfgBare, preEx, setButtonsActive, showFeedback]

theorem sActiveBare_eq :
    sActiveBare = ⟨true, false, 3, true, true, true, false, "", false⟩ := by
  rw [sActiveBare, sWaitBare_eq]
  simp [update, sampleOf, cfgBare, applyReveal, setButtonsActive,
    showFeedback]

/-- C6: unbound collaborators never abort a transition.  A correct click
with no media actuator present (and no audio source) still completes the
quiz and issues no command; a triggering tick with no external clock still
activates the quiz and issues no command; with no feedback sink the
feedback effect is the identity on the state. -/
theorem unbound_collaborators (cfg : Config) (s : State) (ans : String)
    (dt : ℚ) :
    (phase s = Phase.Active → ans = cfg.correctAnswer →
      phase (onAnswer cfg s ans false).1 = Phase.Completed ∧
      (s.hasAudioSource = false → (onAnswer cfg s ans false).2 = [])) ∧
    (phase s = Phase.Waiting → cfg.quizTime ≤ s.elapsed + dt →
      phase (update cfg s dt none).1 = Phase.Active ∧
      (update cfg s dt none).2 = []) ∧
    (cfg.hasFeedbackObject = false → ∀ t, showFeedback cfg t s = s) := by
  refine ⟨fun hA hc => ⟨?_, fun hAud => ?_⟩, fun hW hge => ⟨?_, ?_⟩,
    fun hF t => showFeedback_of_not cfg t s hF⟩
  · rw [onAnswer_correct cfg s ans false hA hc, phase_eq_completed_iff]
  · rw [onAnswer_correct cfg s ans false hA hc]
    simp [hAud]
  · rw [update_waiting_none_ge cfg s dt hW hge, phase_applyReveal,
      phase_eq_active_iff]
    exact ⟨((phase_eq_waiting_iff s).mp hW).1, rfl⟩
  · rw [update_waiting_none_ge cfg s dt hW hge]

theorem unbound_collaborators_witness :
    phase (onAnswer cfgBare sActiveBare "A" false).1 = Phase.Completed ∧
    (onAnswer cfgBare sActiveBare "A" false).2 = [] ∧
    phase (update cfgBare sWaitBare 3 none).1 = Phase.Active ∧
    (update cfgBare sWaitBare 3 none).2 = [] ∧
    showFeedback cfgBare "CORRECT!!!" sActiveBare = sActiveBare := by
  have h1 := (unbound_collaborators cfgBare sActiveBare "A" 3).1
    (by rw [sActiveBare_eq]; decide) (by decide)
  have h2 := (unbound_collaborators cfgBare sWaitBare "A" 3).2.1
    (by rw [sWaitBare_eq]; decide)
    (by rw [sWaitBare_eq]; show (3:ℚ) ≤ 0 + 3; simp)
  have h3 := (unbound_collaborators cfgBare sActiveBare "A" 3).2.2
    (by decide) "CORRECT!!!"
  exact ⟨h1.1, h1.2 (by simp [sActiveBare_eq]), h2.1, h2.2, h3⟩

/-- A configuration whose trigger time is far away, so ticks keep sampling. -/
def cfgLate : Config :=
  ⟨100, "A", true, true, true, true, true⟩

/-- `Waiting` state of the far-trigger configuration after `start`. -/
def sWaitLate : State := startState cfgLate preEx

theorem sWaitLate_eq :
    sWaitLate = ⟨false, false, 0, false, false, false, false, "", false⟩ := by
  simp [sWaitLate, startState, cfgLate, preEx, setButtonsActive, showFeedback]

/-- C7 counterexample: two ticks in one session, both with non-negative
deltas — the first with the external clock absent (fallback accumulates to
5), the second with the external clock present at 1.  The preferred
external sample 1 is below the previous fallback sample 5, so the sample
sequence is not monotonically non-decreasing. -/
theorem clock_sample_counterexample :
    samplesOf cfgLate sWaitLate [(5, none), (0, some 1)] = [5, 1] ∧
    ¬ (samplesOf cfgLate sWaitLate
        [(5, none), (0, some 1)]).Sorted (· ≤ ·) := by
  have hW : phase sWaitLate = Phase.Waiting := by rw [sWaitLate_eq]; decide
  have h5 : sWaitLate.elapsed + 5 < cfgLate.quizTime := by
    rw [sWaitLate_eq]
    show (0 : ℚ) + 5 < 100
    rw [zero_add]
    decide
  have hstep : update cfgLate sWaitLate 5 none =
      ({ sWaitLate with elapsed := sWaitLate.elapsed + 5 }, []) :=
    update_waiting_none_lt cfgLate sWaitLate 5 hW h5
  have hW2 : phase { sWaitLate with elapsed := sWaitLate.elapsed + 5 } =
      Phase.Waiting := by simpa using hW
  have heq : samplesOf cfgLate sWaitLate [(5, none), (0, some 1)] = [5, 1] := by
    simp only [samplesOf, hstep, hW, hW2, phase_with_elapsed, if_pos]
    rw [sWaitLate_eq]
    simp [sampleOf]
  refine ⟨heq, fun hs => ?_⟩
  rw [heq] at hs
  exact absurd ((List.sorted_cons.mp hs).1 1 (by simp)) (by decide)

/-- Ticks arriving after the phase has left `Waiting` read no sample. -/
theorem samplesOf_of_not_waiting (cfg : Config) (s : State)
    (l : List (ℚ × Option ℚ)) (h : phase s ≠ Phase.Waiting) :
    samplesOf cfg s l = [] := by
  induction l generalizing s with
  | nil => rfl
  | cons p rest ih =>
    obtain ⟨dt, ext⟩ := p
    simp only [samplesOf, update_not_waiting cfg s dt ext h]
    simp [h, ih s h]

/-- With the external clock absent on every tick and non-negative deltas,
the samples read are sorted and bounded below by the starting timer. -/
theorem samplesOf_fallback_sorted (cfg : Config)
    (l : List (ℚ × Option ℚ)) (s : State)
    (h : ∀ p ∈ l, p.2 = none ∧ 0 ≤ p.1) :
    (samplesOf cfg s l).Sorted (· ≤ ·) ∧
    ∀ x ∈ samplesOf cfg s l, s.elapsed ≤ x := by
  induction l generalizing s with
  | nil => simp [samplesOf]
  | cons p rest ih =>
    obtain ⟨dt, ext⟩ := p
    obtain ⟨hnone, hdt⟩ := h (dt, ext) (by simp)
    simp only at hnone hdt
    subst hnone
    have hrest : ∀ p ∈ rest, p.2 = none ∧ 0 ≤ p.1 := fun p hp =>
      h p (by simp [hp])
    by_cases hW : phase s = Phase.Waiting
    · by_cases hge : cfg.quizTime ≤ s.elapsed + dt
      · have hstep := update_waiting_none_ge cfg s dt hW hge
        have hnw : phase (update cfg s dt none).1 ≠ Phase.Waiting := by
          rw [hstep]
          simp [phase_eq_waiting_iff]
        simp only [samplesOf, if_pos hW,
          samplesOf_of_not_waiting cfg _ rest hnw]
        refine ⟨List.sorted_singleton _, fun x hx => ?_⟩
        rcases List.mem_singleton.mp hx with rfl
        have h1 : s.elapsed ≤ s.elapsed + dt := le_add_of_nonneg_right hdt
        simpa [sampleOf] using h1
      · have hstep := update_waiting_none_lt cfg s dt hW (not_le.mp hge)
        obtain ⟨hs, hb⟩ := ih { s with elapsed := s.elapsed + dt } hrest
        simp only [samplesOf, if_pos hW, hstep]
        constructor
        · rw [List.sorted_cons]
          exact ⟨fun b hb' => hb b hb', hs⟩
        · intro x hx
          have h1 : s.elapsed ≤ s.elapsed + dt := le_add_of_nonneg_right hdt
          rcases List.mem_cons.mp hx with rfl | hx
          · simpa [sampleOf] using h1
          · have h2 : s.elapsed + dt ≤ x := hb x hx
            exact le_trans h1 h2
    · simp only [samplesOf, if_neg hW, update_not_waiting cfg s dt none hW]
      exact ih s hrest

/-- C7 amended: on every individual tick the external clock is preferred
whenever present (the sample is its value and the fallback accumulator is
neither consulted nor mutated), and the fallback sample is the accumulator
plus the delta.  The sample sequence is monotonically non-decreasing when
the external clock is absent throughout the session and deltas are
non-negative; when the external clock is present the samples are its own
values, so no monotonicity beyond the external contract is established by
the code (no reconciliation between the two clocks). -/
theorem clock_sample_policy (cfg : Config) (s : State)
    (l : List (ℚ × Option ℚ)) :
    (∀ (t : State) (dt c : ℚ), sampleOf t dt (some c) = c ∧
      ((update cfg t dt (some c)).1).elapsed = t.elapsed) ∧
    (∀ (t : State) (dt : ℚ), sampleOf t dt none = t.elapsed + dt) ∧
    ((∀ p ∈ l, p.2 = none ∧ 0 ≤ p.1) →
      (samplesOf cfg s l).Sorted (· ≤ ·)) := by
  refine ⟨fun t dt c => ⟨rfl, ?_⟩, fun t dt => rfl,
    fun h => (samplesOf_fallback_sorted cfg l s h).1⟩
  by_cases hW : phase t = Phase.Waiting
  · by_cases hge : cfg.quizTime ≤ c
    · rw [update_waiting_some_ge cfg t dt c hW hge]
      simp
    · rw [update_waiting_some_lt cfg t dt c hW (not_le.mp hge)]
  · rw [update_not_waiting cfg t dt (some c) hW]

theorem clock_sample_policy_witness :
    sampleOf sWaitLate 5 (some 1) = 1 ∧
    ((update cfgLate sWaitLate 5 (some 1)).1).elapsed = sWaitLate.elapsed ∧
    sampleOf sWaitLate 5 none = sWaitLate.elapsed + 5 ∧
    (samplesOf cfgLate sWaitLate [(1, none), (2, none)]).Sorted (· ≤ ·) := by
  have h := clock_sample_policy cfgLate sWaitLate [(1, none), (2, none)]
  exact ⟨(h.1 sWaitLate 5 1).1, (h.1 sWaitLate 5 1).2, h.2.1 sWaitLate 5,
    h.2.2 (by decide)⟩

/-- C8: the three presentation effects are idempotent on the observable
state (button visibility flags, feedback sink visibility and text):
applying the same effect twice yields the same state as applying it once. -/
theorem effects_idempotent (cfg : Config) (s : State) :
    applyReveal cfg (applyReveal cfg s) = applyReveal cfg s ∧
    applySucceed cfg (applySucceed cfg s) = applySucceed cfg s ∧
    applyRetry cfg (applyRetry cfg s) = applyRetry cfg s := by
  rcases cfg with ⟨qt, ca, bA, bB, bC, fO, fT⟩
  rcases s with ⟨a1, a2, a3, a4, a5, a6, a7, a8, a9⟩
  refine ⟨?_, ?_, ?_⟩ <;>
    cases bA <;> cases bB <;> cases bC <;> cases fO <;> cases fT <;> rfl

theorem applyReveal_buttonA (cfg : Config) (s : State)
    (h : cfg.hasButtonA = true) :
    (applyReveal cfg s).buttonAActive = true := by
  unfold applyReveal
  rw [showFeedback_buttonAActive]
  exact setButtonsActive_buttonA_of_has cfg true s h

theorem applyReveal_buttonB (cfg : Config) (s : State)
    (h : cfg.hasButtonB = true) :
    (applyReveal cfg s).buttonBActive = true := by
  unfold applyReveal
  rw [showFeedback_buttonBActive]
  exact setButtonsActive_buttonB_of_has cfg true s h

theorem applyReveal_buttonC (cfg : Config) (s : State)
    (h : cfg.hasButtonC = true) :
    (applyReveal cfg s).buttonCActive = true := by
  unfold applyReveal
  rw [showFeedback_buttonCActive]
  exact setButtonsActive_buttonC_of_has cfg true s h

theorem applySucceed_buttonA (cfg : Config) (s : State)
    (h : cfg.hasButtonA = true) :
    (applySucceed cfg s).buttonAActive = false := by
  unfold applySucceed
  exact setButtonsActive_buttonA_of_has cfg false _ h

theorem applySucceed_buttonB (cfg : Config) (s : State)
    (h : cfg.hasButtonB = true) :
    (applySucceed cfg s).buttonBActive = false := by
  unfold applySucceed
  exact setButtonsActive_buttonB_of_has cfg false _ h

theorem applySucceed_buttonC (cfg : Config) (s : State)
    (h : cfg.hasButtonC = true) :
    (applySucceed cfg s).buttonCActive = false := by
  unfold applySucceed
  exact setButtonsActive_buttonC_of_has cfg false _ h

/-- C9: from the end of `start` on, after every `update` and every click,
each bound button's `active` flag is `true` exactly when the phase is
`Active`: hidden while `Waiting`, shown while `Active` (also after wrong
answers), hidden again once `Completed`. -/
theorem buttons_track_phase (cfg : Config) (s : State)
    (h : Reachable cfg s) :
    (cfg.hasButtonA = true →
      (s.buttonAActive = true ↔ phase s = Phase.Active)) ∧
    (cfg.hasButtonB = true →
      (s.buttonBActive = true ↔ phase s = Phase.Active)) ∧
    (cfg.hasButtonC = true →
      (s.buttonCActive = true ↔ phase s = Phase.Active)) := by
  induction h with
  | start pre hpre =>
    refine ⟨fun hb => ?_, fun hb => ?_, fun hb => ?_⟩ <;>
      rw [startState_phase] <;>
      simp [startState, setButtonsActive_buttonA_of_has,
        setButtonsActive_buttonB_of_has, setButtonsActive_buttonC_of_has, hb]
  | tick s dt ext hr ih =>
    by_cases hW : phase s = Phase.Waiting
    · have hcF : s.quizCompleted = false := ((phase_eq_waiting_iff s).mp hW).1
      cases ext with
      | none =>
        by_cases hge : cfg.quizTime ≤ s.elapsed + dt
        · rw [update_waiting_none_ge cfg s dt hW hge]
          refine ⟨fun hb => ?_, fun hb => ?_, fun hb => ?_⟩ <;>
            simp [applyReveal_buttonA, applyReveal_buttonB,
              applyReveal_buttonC, hb, phase_eq_active_iff, hcF]
        · rw [update_waiting_none_lt cfg s dt hW (not_le.mp hge)]
          exact ih
      | some t =>
        by_cases hge : cfg.quizTime ≤ t
        · rw [update_waiting_some_ge cfg s dt t hW hge]
          refine ⟨fun hb => ?_, fun hb => ?_, fun hb => ?_⟩ <;>
            simp [applyReveal_buttonA, applyReveal_buttonB,
              applyReveal_buttonC, hb, phase_eq_active_iff, hcF]
        · rw [update_waiting_some_lt cfg s dt t hW (not_le.mp hge)]
          exact ih
    · rw [update_not_waiting cfg s dt ext hW]
      exact ih
  | click s ans vid hr ih =>
    by_cases hA : phase s = Phase.Active
    · by_cases hc : ans = cfg.correctAnswer
      · rw [onAnswer_correct cfg s ans vid hA hc]
        refine ⟨fun hb => ?_, fun hb => ?_, fun hb => ?_⟩ <;>
          simp [applySucceed_buttonA, applySucceed_buttonB,
            applySucceed_buttonC, hb, phase_eq_active_iff]
      · rw [onAnswer_wrong cfg s ans vid hA hc]
        refine ⟨fun hb => ?_, fun hb => ?_, fun hb => ?_⟩
        · simpa [applyRetry] using ih.1 hb
        · simpa [applyRetry] using ih.2.1 hb
        · simpa [applyRetry] using ih.2.2 hb
    · rw [onAnswer_not_active cfg s ans vid hA]
      exact ih

theorem buttons_track_phase_witness :
    (sActiveEx.buttonAActive = true ↔ phase sActiveEx = Phase.Active) ∧
    (sActiveEx.buttonBActive = true ↔ phase sActiveEx = Phase.Active) ∧
    (sActiveEx.buttonCActive = true ↔ phase sActiveEx = Phase.Active) := by
  have hr : Reachable cfgEx sActiveEx :=
    Reachable.tick sWaitEx 3 none (Reachable.start preEx rfl)
  have h := buttons_track_phase cfgEx sActiveEx hr
  exact ⟨h.1 rfl, h.2.1 rfl, h.2.2 rfl⟩

theorem update_hasAudioSource (cfg : Config) (s : State) (dt : ℚ)
    (ext : Option ℚ) :
    ((update cfg s dt ext).1).hasAudioSource = s.hasAudioSource := by
  by_cases hW : phase s = Phase.Waiting
  · cases ext with
    | none =>
      by_cases hge : cfg.quizTime ≤ s.elapsed + dt
      · rw [update_waiting_none_ge cfg s dt hW hge]
        simp
      · rw [update_waiting_none_lt cfg s dt hW (not_le.mp hge)]
    | some t =>
      by_cases hge : cfg.quizTime ≤ t
      · rw [update_waiting_some_ge cfg s dt t hW hge]
        simp
      · rw [update_waiting_some_lt cfg s dt t hW (not_le.mp hge)]
  · rw [update_not_waiting cfg s dt ext hW]

theorem onAnswer_hasAudioSource (cfg : Config) (s : State) (ans : String)
    (vid : Bool) :
    ((onAnswer cfg s ans vid).1).hasAudioSource = s.hasAudioSource := by
  by_cases hA : phase s = Phase.Active
  · by_cases hc : ans = cfg.correctAnswer
    · rw [onAnswer_correct cfg s ans vid hA hc]
      simp
    · rw [onAnswer_wrong cfg s ans vid hA hc]
      simp [applyRetry]
  · rw [onAnswer_not_active cfg s ans vid hA]

/-- No operation ever assigns the `audioSource` field, so it stays absent
in every reachable state. -/
theorem reachable_hasAudioSource (cfg : Config) (s : State)
    (h : Reachable cfg s) : s.hasAudioSource = false := by
  induction h with
  | start pre hpre =>
    unfold startState
    simp only [setButtonsActive_hasAudioSource]
    split <;> exact hpre
  | tick s dt ext hr ih =>
    rw [update_hasAudioSource]
    exact ih
  | click s ans vid hr ih =>
    rw [onAnswer_hasAudioSource]
    exact ih

theorem audioPlay_not_mem (cfg : Config) (s : State) (ans : String)
    (vid : Bool) (h : s.hasAudioSource = false) :
    Cmd.audioPlay ∉ (onAnswer cfg s ans vid).2 := by
  by_cases hA : phase s = Phase.Active
  · by_cases hc : ans = cfg.correctAnswer
    · rw [onAnswer_correct cfg s ans vid hA hc]
      cases vid <;> simp [h]
    · rw [onAnswer_wrong cfg s ans vid hA hc]
      simp
  · rw [onAnswer_not_active cfg s ans vid hA]
    simp

/-- C10: the audio-resume branch of the success path is dead code: no
operation and no editor property ever assigns `audioSource`, so every
reachable state has it absent, a correct click never emits an audio play
command, and the `Succeed` transition completes regardless. -/
theorem audio_resume_unreachable (cfg : Config) (s : State)
    (h : Reachable cfg s) :
    s.hasAudioSource = false ∧
    (∀ (ans : String) (vid : Bool),
      Cmd.audioPlay ∉ (onAnswer cfg s ans vid).2) ∧
    (∀ ans : String, phase s = Phase.Active → ans = cfg.correctAnswer →
      phase (onAnswer cfg s ans false).1 = Phase.Completed) := by
  have hAud := reachable_hasAudioSource cfg s h
  refine ⟨hAud, fun ans vid => audioPlay_not_mem cfg s ans vid hAud,
    fun ans hA hc => ?_⟩
  rw [onAnswer_correct cfg s ans false hA hc, phase_eq_completed_iff]

theorem audio_resume_unreachable_witness :
    sDoneEx.hasAudioSource = false ∧
    Cmd.audioPlay ∉ (onAnswer cfgEx sDoneEx "A" true).2 ∧
    phase (onAnswer cfgEx sActiveEx "A" false).1 = Phase.Completed := by
  have r1 : Reachable cfgEx sActiveEx :=
    Reachable.tick sWaitEx 3 none (Reachable.start preEx rfl)
  have r2 : Reachable cfgEx sDoneEx :=
    Reachable.click sActiveEx "A" false r1
  exact ⟨(audio_resume_unreachable cfgEx sDoneEx r2).1,
    (audio_resume_unreachable cfgEx sDoneEx r2).2.1 "A" true,
    (audio_resume_unreachable cfgEx sActiveEx r1).2.2 "A"
      (by rw [sActiveEx_eq]; decide) (by decide)⟩

end QuizAtTime
